import Mathlib

/-!
Verification of the session-lifecycle core of the terminal server
(`part_004` of the repository: Express app with in-memory `sessions`
table and `containerCount` capacity counter).

The server state is embedded shallowly: the JS object `sessions` becomes
an association list keyed by session id, `containerCount` becomes an
integer, and every route handler that can mutate this state becomes a
pure function from the old state (plus the request inputs and the
environment's answers for Docker calls and clock reads) to a response
and the new state.  Docker calls are external I/O, so their outcomes
(`DockerCreateResult`, `DockerExecResult`, the `destroyOk` flag for
stop/remove during cleanup) are inputs to the embedded functions.
-/

namespace TerminalServer

/-- Process-wide configuration: `MAX_CONTAINERS` and `SESSION_TIMEOUT`
from the environment (defaults 100 and 3600000 ms). -/
structure Config where
  maxContainers : Nat
  sessionTimeout : Nat
deriving Repr, DecidableEq

/-- One entry of `session.logs`: the JS `logEntry` object pushed by the
web execute-command handler.  `output`, `exitCode` and `errMsg` start
absent and are filled in on the same (head) entry once the command
finishes or fails, mirroring the in-place mutation of `logEntry`. -/
structure LogEntry where
  timestamp : Nat
  userId : String
  sessionId : String
  clientIp : String
  command : String
  webUser : String
  output : Option String
  exitCode : Option Int
  errMsg : Option String
deriving Repr, DecidableEq

/-- A record of the `sessions` table.  Fields that the legacy
`/create-session` path leaves undefined in JS (`webUser`,
`sessionName`, `isMock`, `commandCount`, `logs`) are modelled with the
values the rest of the code observes for `undefined`: `none`, `false`,
`0`, `[]` (the handlers guard with `session.commandCount || 0`,
`if (!session.logs) session.logs = []`, and truthiness of
`session.isMock`). -/
structure Session where
  userId : String
  clientIp : String
  containerId : String
  created : Nat
  lastAccessed : Nat
  webUser : Option String
  sessionName : Option String
  isMock : Bool
  commandCount : Nat
  logs : List LogEntry
deriving Repr, DecidableEq

/-- The JS object `sessions`, keyed by session id. -/
abbrev Registry := List (String × Session)

/-- Whole mutable server state relevant to the core: the `sessions`
object and the `containerCount` counter. -/
structure ServerState where
  sessions : Registry
  containerCount : Int
deriving Repr, DecidableEq

/-- At process start: `sessions = {}` and `containerCount = 0`. -/
def initialState : ServerState := ⟨[], 0⟩

/-- Lookup `sessions[sid]` (first binding wins; JS object keys are unique). -/
def getS : Registry → String → Option Session
  | [], _ => none
  | (k, v) :: rest, sid => if k = sid then some v else getS rest sid

/-- Assignment `sessions[sid] = s`: replace the existing binding, or
append a new one (JS string-keyed objects keep insertion order). -/
def putS : Registry → String → Session → Registry
  | [], sid, s => [(sid, s)]
  | (k, v) :: rest, sid, s =>
      if k = sid then (k, s) :: rest else (k, v) :: putS rest sid s

/-- `delete sessions[sid]`. -/
def delS : Registry → String → Registry
  | [], _ => []
  | (k, v) :: rest, sid =>
      if k = sid then delS rest sid else (k, v) :: delS rest sid

/-- `cleanupSession(sessionId)`: if no such session, return.  Otherwise
stop and remove the container, decrement `containerCount`, and delete
the session — all inside one `try`, so when the Docker stop/remove
fails (`destroyOk = false`) the catch swallows the error and neither
the decrement nor the deletion happens.  This is the single teardown
path used by explicit termination, the idle reaper, and the expiry
checks. -/
def cleanupSession (st : ServerState) (sid : String) (destroyOk : Bool) :
    ServerState :=
  match getS st.sessions sid with
  | none => st
  | some _ =>
      if destroyOk then
        { sessions := delS st.sessions sid,
          containerCount := st.containerCount - 1 }
      else st

/-- Outcome of `docker.createContainer` + `container.start` as seen by a
handler: success with the container id, a failure whose message contains
`connect ENOENT /var/run/docker.sock`, or any other failure. -/
inductive DockerCreateResult where
  | ok (containerId : String)
  | sockErr (msg : String)
  | otherErr (msg : String)
deriving Repr, DecidableEq

/-- Outcome of getting the container and running `exec` in it: normal
completion with collected output and exit code, a stream `error` event,
a failure of `exec.inspect()`, a thrown error mentioning the Docker
socket, or any other thrown error. -/
inductive DockerExecResult where
  | ok (output : String) (exitCode : Int)
  | streamErr (msg : String)
  | inspectErr
  | sockErr (msg : String)
  | otherErr (msg : String)
deriving Repr, DecidableEq

/-- The authenticated web principal attached by `validateWebSession`:
`req.webSession.username` and `req.webSession.isAdmin`. -/
structure Requester where
  username : String
  isAdmin : Bool
deriving Repr, DecidableEq

/-- Response of `POST /api/create-session`.  `isMock` is `some true`
exactly when the JSON body carries the `isMock: true` field (the mock
fallback); in the real-mode response the field is absent (`none`). -/
inductive CreateResp where
  | capacityExceeded
  | created (sessionId userId sessionName : String) (expiresIn : Nat)
      (isMock : Option Bool)
  | createFailed (msg : String)
deriving Repr, DecidableEq

/-- `mock-container-` prefix used for mock session container ids. -/
def mockContainerId (uuid : String) : String := "mock-container-" ++ uuid

/-- `POST /api/create-session` (after `validateWebSession`): capacity
check against `containerCount`, then container creation; on a Docker
socket error, fall back to a mock session; on any other error, the
rethrow lands in the outer catch and a 500 is returned with no state
change. -/
def webCreateSession (cfg : Config) (st : ServerState) (webUser : String)
    (sessionNameReq : Option String) (sessionId clientIp : String)
    (now : Nat) (dres : DockerCreateResult) (mockUuid : String) :
    CreateResp × ServerState :=
  if st.containerCount ≥ (cfg.maxContainers : Int) then
    (.capacityExceeded, st)
  else
    let sessionName := sessionNameReq.getD ("Session-" ++ sessionId.take 8)
    match dres with
    | .ok cid =>
        let s : Session :=
          ⟨webUser, clientIp, cid, now, now, some webUser, some sessionName,
            false, 0, []⟩
        (.created sessionId webUser sessionName cfg.sessionTimeout none,
          { sessions := putS st.sessions sessionId s,
            containerCount := st.containerCount + 1 })
    | .sockErr _ =>
        let s : Session :=
          ⟨webUser, clientIp, mockContainerId mockUuid, now, now,
            some webUser, some sessionName, true, 0, []⟩
        (.created sessionId webUser sessionName cfg.sessionTimeout
            (some true),
          { sessions := putS st.sessions sessionId s,
            containerCount := st.containerCount + 1 })
    | .otherErr msg =>
        (.createFailed ("Failed to create session: " ++ msg), st)

/-- Response of the legacy `POST /create-session` (no `sessionName`
field, no mock fallback). -/
inductive LegacyCreateResp where
  | capacityExceeded
  | created (sessionId userId : String) (expiresIn : Nat)
  | createFailed (msg : String)
deriving Repr, DecidableEq

/-- Legacy `POST /create-session` (after API-key `authenticate`): same
capacity check, but ANY Docker failure — socket error included — goes
to the catch and returns a 500 with no state change. -/
def legacyCreateSession (cfg : Config) (st : ServerState)
    (userIdReq : Option String) (fallbackUuid sessionId clientIp : String)
    (now : Nat) (dres : DockerCreateResult) :
    LegacyCreateResp × ServerState :=
  if st.containerCount ≥ (cfg.maxContainers : Int) then
    (.capacityExceeded, st)
  else
    let userId := userIdReq.getD fallbackUuid
    match dres with
    | .ok cid =>
        let s : Session :=
          ⟨userId, clientIp, cid, now, now, none, none, false, 0, []⟩
        (.created sessionId userId cfg.sessionTimeout,
          { sessions := putS st.sessions sessionId s,
            containerCount := st.containerCount + 1 })
    | .sockErr msg =>
        (.createFailed ("Failed to create session: " ++ msg), st)
    | .otherErr msg =>
        (.createFailed ("Failed to create session: " ++ msg), st)

/-- Response of `POST /api/execute-command`.  `isMock` is `some true`
exactly when the JSON body carries `isMock: true` (mock and
switched-to-mock branches); in the real path the field is absent
(`none`).  `errorFlag` mirrors the `error: true` field sent with a
nonzero exit code. -/
inductive ExecResp where
  | commandRequired
  | invalidSession
  | sessionExpired
  | forbidden
  | execOk (output : String) (exitCode : Int) (isMock : Option Bool)
      (switched : Bool) (errorFlag : Bool)
  | execFail (msg : String)
deriving Repr, DecidableEq

/-- `session.logs.unshift(logEntry); if (session.logs.length > 10)
session.logs.pop();` -/
def pushLog (logs : List LogEntry) (e : LogEntry) : List LogEntry :=
  let l := e :: logs
  if l.length > 10 then l.dropLast else l

/-- In-place mutation of the just-pushed `logEntry`, which sits at the
head of `session.logs`. -/
def setHeadLog (logs : List LogEntry) (f : LogEntry → LogEntry) :
    List LogEntry :=
  match logs with
  | [] => []
  | e :: rest => f e :: rest

/-- Canned output of the mock execution branch (ISO timestamp modelled
by the numeric clock). -/
def mockExecOutput (command : String) (now : Nat)
    (sessionId userId : String) : String :=
  "Executing in mock environment: " ++ command ++ "\n" ++
  "Mock output for demonstration purposes\n" ++
  "Current time: " ++ toString now ++ "\n" ++
  "Session ID: " ++ sessionId ++ "\n" ++
  "User: " ++ userId ++ "\n"

/-- Canned output when a real session is switched to mock mode because
Docker became unavailable during `exec`. -/
def switchedMockOutput (command : String) : String :=
  "Switched to mock mode (Docker unavailable).\n" ++
  "Mock output for: " ++ command ++ "\n"

/-- `POST /api/execute-command` (after `validateWebSession`).  Order of
the guards follows the source: missing/empty command, unknown session,
expiry (with `cleanupSession` as a side effect), ownership/admin check,
then the mutation of `lastAccessed`, `commandCount` and `logs`, then
the mock branch or the Docker dispatch.  A Docker-socket error thrown
during dispatch flips `session.isMock` to `true` and answers with a
mock response. -/
def webExecuteCommand (cfg : Config) (st : ServerState) (req : Requester)
    (command sessionId? : Option String) (now : Nat)
    (dres : DockerExecResult) (destroyOk : Bool) :
    ExecResp × ServerState :=
  if command = none ∨ command = some "" then (.commandRequired, st)
  else
    let c := command.getD ""
    match sessionId? with
    | none => (.invalidSession, st)
    | some sid =>
      match getS st.sessions sid with
      | none => (.invalidSession, st)
      | some s =>
        if now - s.lastAccessed > cfg.sessionTimeout then
          (.sessionExpired, cleanupSession st sid destroyOk)
        else if s.webUser ≠ some req.username ∧ req.isAdmin = false then
          (.forbidden, st)
        else
          let entry : LogEntry :=
            ⟨now, s.userId, sid, s.clientIp, c, req.username, none, none,
              none⟩
          let s1 := { s with lastAccessed := now,
                             commandCount := s.commandCount + 1,
                             logs := pushLog s.logs entry }
          if s1.isMock then
            let out := mockExecOutput c now sid s.userId
            let fin := fun (e : LogEntry) =>
              { e with output := some out, exitCode := some 0 }
            let s2 := { s1 with logs := setHeadLog s1.logs fin }
            (.execOk out 0 (some true) false false,
              { st with sessions := putS st.sessions sid s2 })
          else
            match dres with
            | .ok out code =>
                let fin := fun (e : LogEntry) =>
                  { e with output := some out, exitCode := some code }
                let s2 := { s1 with logs := setHeadLog s1.logs fin }
                (.execOk out code none false (decide (code ≠ 0)),
                  { st with sessions := putS st.sessions sid s2 })
            | .streamErr msg =>
                let fin := fun (e : LogEntry) => { e with errMsg := some msg }
                let s2 := { s1 with logs := setHeadLog s1.logs fin }
                (.execFail msg,
                  { st with sessions := putS st.sessions sid s2 })
            | .inspectErr =>
                let fin := fun (e : LogEntry) =>
                  { e with errMsg := some "Failed to get command status" }
                let s2 := { s1 with logs := setHeadLog s1.logs fin }
                (.execFail "Failed to get command status",
                  { st with sessions := putS st.sessions sid s2 })
            | .sockErr msg =>
                let fin := fun (e : LogEntry) => { e with errMsg := some msg }
                let s2 := { s1 with isMock := true,
                                    logs := setHeadLog s1.logs fin }
                (.execOk (switchedMockOutput c) 0 (some true) true false,
                  { st with sessions := putS st.sessions sid s2 })
            | .otherErr msg =>
                let fin := fun (e : LogEntry) => { e with errMsg := some msg }
                let s2 := { s1 with logs := setHeadLog s1.logs fin }
                (.execFail ("Failed to execute command: " ++ msg),
                  { st with sessions := putS st.sessions sid s2 })

/-- Response of the legacy `POST /execute-command`. -/
inductive LegacyExecResp where
  | invalidSession
  | sessionExpired
  | commandRequired
  | ok (output : String)
  | cmdFailed (errOutput : String) (exitCode : Int)
  | execFail (msg : String)
deriving Repr, DecidableEq

/-- Legacy `POST /execute-command` (after `authenticate` and
`validateSession`).  The middleware rejects an unknown session, tears
down and rejects an expired one, and otherwise refreshes
`lastAccessed` BEFORE the handler's own command guard runs.  The
handler has no mock branch and no session-log update: any Docker
failure becomes a 4xx/5xx error response. -/
def legacyExecCommand (cfg : Config) (st : ServerState)
    (sessionId? command : Option String) (now : Nat)
    (dres : DockerExecResult) (destroyOk : Bool) :
    LegacyExecResp × ServerState :=
  match sessionId? with
  | none => (.invalidSession, st)
  | some sid =>
    match getS st.sessions sid with
    | none => (.invalidSession, st)
    | some s =>
      if now - s.lastAccessed > cfg.sessionTimeout then
        (.sessionExpired, cleanupSession st sid destroyOk)
      else
        let s1 := { s with lastAccessed := now }
        let st1 := { st with sessions := putS st.sessions sid s1 }
        if command = none ∨ command = some "" then (.commandRequired, st1)
        else
          match dres with
          | .ok out code =>
              if code ≠ 0 then
                (.cmdFailed (if out = "" then "Command failed" else out)
                    code, st1)
              else (.ok out, st1)
          | .streamErr msg => (.execFail msg, st1)
          | .inspectErr => (.execFail "Failed to get command status", st1)
          | .sockErr msg =>
              (.execFail ("Failed to execute command: " ++ msg), st1)
          | .otherErr msg =>
              (.execFail ("Failed to execute command: " ++ msg), st1)

/-- Response of `POST /execute-command-legacy`. -/
inductive LegacyCompatResp where
  | commandRequired
  | capacityExceeded
  | createFailed
  | ok (output : String)
  | cmdFailed (errOutput : String) (exitCode : Int)
  | execFail (msg : String)
deriving Repr, DecidableEq

/-- First session whose `userId` equals the device id
(`Object.entries` iteration order = insertion order). -/
def findByUser : Registry → String → Option String
  | [], _ => none
  | (k, v) :: rest, uid =>
      if v.userId = uid then some k else findByUser rest uid

/-- Shared tail of `POST /execute-command-legacy`: refresh
`lastAccessed` and execute the command against the container. -/
def legacyCompatRun (st : ServerState) (sid : String) (s : Session)
    (now : Nat) (dres : DockerExecResult) :
    LegacyCompatResp × ServerState :=
  let s1 := { s with lastAccessed := now }
  let st1 := { st with sessions := putS st.sessions sid s1 }
  match dres with
  | .ok out code =>
      if code ≠ 0 then
        (.cmdFailed (if out = "" then "Command failed" else out) code, st1)
      else (.ok out, st1)
  | .streamErr msg => (.execFail msg, st1)
  | .inspectErr => (.execFail "Failed to get command status", st1)
  | .sockErr msg => (.execFail ("Failed to execute command: " ++ msg), st1)
  | .otherErr msg => (.execFail ("Failed to execute command: " ++ msg), st1)

/-- `POST /execute-command-legacy` (after `authenticate`): command
guard first, then find the device's existing session or create one
(capacity check, Docker create — any failure is a 500 with no state
change), then execute. -/
def legacyCompatExec (cfg : Config) (st : ServerState) (deviceId : String)
    (command : Option String) (newSessionId clientIp : String) (now : Nat)
    (dcres : DockerCreateResult) (dres : DockerExecResult) :
    LegacyCompatResp × ServerState :=
  if command = none ∨ command = some "" then (.commandRequired, st)
  else
    match findByUser st.sessions deviceId with
    | some sid =>
        match getS st.sessions sid with
        | some s => legacyCompatRun st sid s now dres
        | none => (.execFail "Failed to execute command: no session", st)
    | none =>
        if st.containerCount ≥ (cfg.maxContainers : Int) then
          (.capacityExceeded, st)
        else
          match dcres with
          | .ok cid =>
              let s : Session :=
                ⟨deviceId, clientIp, cid, now, now, none, none, false, 0,
                  []⟩
              let st1 : ServerState :=
                { sessions := putS st.sessions newSessionId s,
                  containerCount := st.containerCount + 1 }
              legacyCompatRun st1 newSessionId s now dres
          | .sockErr _ => (.createFailed, st)
          | .otherErr _ => (.createFailed, st)

/-- Response of `DELETE /api/session/:id`. -/
inductive DeleteResp where
  | notFound
  | forbidden
  | deleted
deriving Repr, DecidableEq

/-- `DELETE /api/session/:id` (after `validateWebSession`): 404 when
the id is not in the registry, 403 when the requester is neither the
owner nor an admin, otherwise `cleanupSession` and a success message
(`cleanupSession` swallows its own errors, so the handler's catch
never fires and the response is success regardless of the Docker
outcome). -/
def webDeleteSession (st : ServerState) (req : Requester) (sid : String)
    (destroyOk : Bool) : DeleteResp × ServerState :=
  match getS st.sessions sid with
  | none => (.notFound, st)
  | some s =>
      if s.webUser ≠ some req.username ∧ req.isAdmin = false then
        (.forbidden, st)
      else (.deleted, cleanupSession st sid destroyOk)

/-- Response of the legacy `DELETE /session`. -/
inductive LegacyDeleteResp where
  | invalidSession
  | sessionExpired
  | deleted
deriving Repr, DecidableEq

/-- Legacy `DELETE /session` (after `authenticate` and
`validateSession`): the middleware refreshes `lastAccessed`, then the
handler calls `cleanupSession` and always answers success. -/
def legacyDeleteSession (cfg : Config) (st : ServerState)
    (sessionId? : Option String) (now : Nat) (destroyOk : Bool) :
    LegacyDeleteResp × ServerState :=
  match sessionId? with
  | none => (.invalidSession, st)
  | some sid =>
    match getS st.sessions sid with
    | none => (.invalidSession, st)
    | some s =>
      if now - s.lastAccessed > cfg.sessionTimeout then
        (.sessionExpired, cleanupSession st sid destroyOk)
      else
        let s1 := { s with lastAccessed := now }
        let st1 := { st with sessions := putS st.sessions sid s1 }
        (.deleted, cleanupSession st1 sid destroyOk)

/-- Response of the legacy `GET /session`. -/
inductive LegacyGetResp where
  | invalidSession
  | sessionExpired
  | ok (userId : String) (created lastAccessed : Nat) (expiresIn : Int)
deriving Repr, DecidableEq

/-- Legacy `GET /session` (after `authenticate` and `validateSession`):
the middleware may tear down an expired session or refresh
`lastAccessed`; the handler reports the session fields. -/
def legacyGetSession (cfg : Config) (st : ServerState)
    (sessionId? : Option String) (now : Nat) (destroyOk : Bool) :
    LegacyGetResp × ServerState :=
  match sessionId? with
  | none => (.invalidSession, st)
  | some sid =>
    match getS st.sessions sid with
    | none => (.invalidSession, st)
    | some s =>
      if now - s.lastAccessed > cfg.sessionTimeout then
        (.sessionExpired, cleanupSession st sid destroyOk)
      else
        let s1 := { s with lastAccessed := now }
        let st1 := { st with sessions := putS st.sessions sid s1 }
        (.ok s1.userId s1.created s1.lastAccessed
            ((cfg.sessionTimeout : Int) - ((now : Int) - s1.lastAccessed)),
          st1)

/-- One step of the idle reaper's sweep: re-read the session and tear
it down when idle past the timeout (`dok` is the environment's answer
for that session's container stop/remove). -/
def reapStep (cfg : Config) (now : Nat) (dok : String → Bool)
    (st : ServerState) (sid : String) : ServerState :=
  match getS st.sessions sid with
  | none => st
  | some s =>
      if now - s.lastAccessed > cfg.sessionTimeout then
        cleanupSession st sid (dok sid)
      else st

/-- The `setInterval` sweep: iterate the snapshot of session ids and
apply the teardown check to each. -/
def reapSessions (cfg : Config) (st : ServerState) (now : Nat)
    (dok : String → Bool) : ServerState :=
  (st.sessions.map Prod.fst).foldl (reapStep cfg now dok) st

/-- Payload of `GET /api/session/:id`.  The source builds this object
WITHOUT any mock field, so `isMock` is constantly `none` (absent). -/
structure SessionDetail where
  id : String
  userId : String
  created : Nat
  lastAccessed : Nat
  expiresIn : Int
  isMock : Option Bool
deriving Repr, DecidableEq

/-- Response of `GET /api/session/:id`. -/
inductive DetailResp where
  | notFound
  | forbidden
  | ok (d : SessionDetail)
deriving Repr, DecidableEq

/-- `GET /api/session/:id` (after `validateWebSession`): owner-or-admin
gated detail view.  Pure: does not touch the registry. -/
def webSessionDetail (cfg : Config) (st : ServerState) (req : Requester)
    (sid : String) (now : Nat) : DetailResp :=
  match getS st.sessions sid with
  | none => .notFound
  | some s =>
      if s.webUser ≠ some req.username ∧ req.isAdmin = false then
        .forbidden
      else
        .ok ⟨sid, s.userId, s.created, s.lastAccessed,
              (cfg.sessionTimeout : Int) - ((now : Int) - s.lastAccessed),
              none⟩

/-- One item of the admin variant of `GET /api/sessions`.  The source
object has no mock field: `isMock` is constantly `none`. -/
structure AdminSessionItem where
  id : String
  userId : String
  webUser : String
  created : Nat
  lastAccessed : Nat
  expiresIn : Int
  clientIp : String
  containerId : String
  isActive : Bool
  idleTime : Nat
  isMock : Option Bool
deriving Repr, DecidableEq

/-- One item of the non-admin variant of `GET /api/sessions`; again no
mock field in the source. -/
structure UserSessionItem where
  id : String
  userId : String
  created : Nat
  lastAccessed : Nat
  expiresIn : Int
  isMock : Option Bool
deriving Repr, DecidableEq

/-- Response of `GET /api/sessions`. -/
inductive SessionListResp where
  | adminList (items : List AdminSessionItem)
  | userList (items : List UserSessionItem)
deriving Repr, DecidableEq

/-- `GET /api/sessions` (after `validateWebSession`): admins see every
session with extra detail; regular users see only their own.  Pure. -/
def webListSessions (cfg : Config) (st : ServerState) (req : Requester)
    (now : Nat) : SessionListResp :=
  if req.isAdmin then
    .adminList (st.sessions.map (fun p =>
      ⟨p.1, p.2.userId, p.2.webUser.getD "API User", p.2.created,
        p.2.lastAccessed,
        (cfg.sessionTimeout : Int) - ((now : Int) - p.2.lastAccessed),
        p.2.clientIp, p.2.containerId, true,
        (now - p.2.lastAccessed) / 1000, none⟩))
  else
    .userList ((st.sessions.filter
        (fun p => p.2.webUser = some req.username)).map (fun p =>
      ⟨p.1, p.2.userId, p.2.created, p.2.lastAccessed,
        (cfg.sessionTimeout : Int) - ((now : Int) - p.2.lastAccessed),
        none⟩))

/-- A state-mutating request against the server, with the environment
inputs (clock, generated uuids, Docker outcomes) it consumed. -/
inductive Op where
  | webCreate (webUser : String) (sessionNameReq : Option String)
      (sessionId clientIp : String) (now : Nat)
      (dres : DockerCreateResult) (mockUuid : String)
  | legacyCreate (userIdReq : Option String)
      (fallbackUuid sessionId clientIp : String) (now : Nat)
      (dres : DockerCreateResult)
  | webExec (req : Requester) (command sessionId? : Option String)
      (now : Nat) (dres : DockerExecResult) (destroyOk : Bool)
  | legacyExec (sessionId? command : Option String) (now : Nat)
      (dres : DockerExecResult) (destroyOk : Bool)
  | legacyCompat (deviceId : String) (command : Option String)
      (newSessionId clientIp : String) (now : Nat)
      (dcres : DockerCreateResult) (dres : DockerExecResult)
  | webDelete (req : Requester) (sid : String) (destroyOk : Bool)
  | legacyDelete (sessionId? : Option String) (now : Nat)
      (destroyOk : Bool)
  | legacyGet (sessionId? : Option String) (now : Nat) (destroyOk : Bool)
  | reap (now : Nat) (dok : String → Bool)

/-- State effect of one request. -/
def runOp (cfg : Config) (st : ServerState) : Op → ServerState
  | .webCreate u n sid ip now d mu =>
      (webCreateSession cfg st u n sid ip now d mu).2
  | .legacyCreate u fu sid ip now d =>
      (legacyCreateSession cfg st u fu sid ip now d).2
  | .webExec r c sid? now d dok =>
      (webExecuteCommand cfg st r c sid? now d dok).2
  | .legacyExec sid? c now d dok =>
      (legacyExecCommand cfg st sid? c now d dok).2
  | .legacyCompat dev c nsid ip now dc d =>
      (legacyCompatExec cfg st dev c nsid ip now dc d).2
  | .webDelete r sid dok => (webDeleteSession st r sid dok).2
  | .legacyDelete sid? now dok =>
      (legacyDeleteSession cfg st sid? now dok).2
  | .legacyGet sid? now dok => (legacyGetSession cfg st sid? now dok).2
  | .reap now dok => reapSessions cfg st now dok

/-- Run a whole request history from process start. -/
def runOps (cfg : Config) (ops : List Op) : ServerState :=
  ops.foldl (runOp cfg) initialState

/-- Session ids an operation may insert into the registry (the uuid the
handler would use for a newly created session). -/
def opCreatedIds : Op → List String
  | .webCreate _ _ sid _ _ _ _ => [sid]
  | .legacyCreate _ _ sid _ _ _ => [sid]
  | .legacyCompat _ _ nsid _ _ _ _ => [nsid]
  | _ => []

/-- Session ids a whole request history may insert. -/
def opsCreatedIds : List Op → List String
  | [] => []
  | op :: rest => opCreatedIds op ++ opsCreatedIds rest

/-- `containerCount` dominates the registry size and respects the
`MAX_CONTAINERS` bound. -/
def CapInv (cfg : Config) (st : ServerState) : Prop :=
  (st.sessions.length : Int) ≤ st.containerCount ∧
    st.containerCount ≤ (cfg.maxContainers : Int)

/-- The registry's keys are pairwise distinct (as JS object keys are). -/
def NodupKeys (st : ServerState) : Prop :=
  (st.sessions.map Prod.fst).Nodup

/-- The capacity counter equals the number of registered sessions. -/
def Balanced (st : ServerState) : Prop :=
  st.containerCount = st.sessions.length

/-- Every session's recent-command log holds at most 10 entries. -/
def LogsInv (st : ServerState) : Prop :=
  ∀ sid s, getS st.sessions sid = some s → s.logs.length ≤ 10

/-- The four primitive state effects a handler branch may have:
nothing, insert a freshly created session (guarded by the capacity
check) while incrementing the counter, rewrite an existing session in
place (never clearing its mock marker nor overflowing its log), or run
`cleanupSession`. -/
inductive Prim (cfg : Config) : ServerState → ServerState → List String → Prop where
  | same (st : ServerState) : Prim cfg st st []
  | create (st : ServerState) (sid : String) (s : Session)
      (hcap : st.containerCount < (cfg.maxContainers : Int))
      (hlogs : s.logs = []) :
      Prim cfg st ⟨putS st.sessions sid s, st.containerCount + 1⟩ [sid]
  | touch (st : ServerState) (sid : String) (s v : Session)
      (h : getS st.sessions sid = some s)
      (hm : s.isMock = true → v.isMock = true)
      (hl : s.logs.length ≤ 10 → v.logs.length ≤ 10) :
      Prim cfg st { st with sessions := putS st.sessions sid v } []
  | clean (st : ServerState) (sid : String) (dok : Bool) :
      Prim cfg st (cleanupSession st sid dok) []

/-- A finite chain of primitive effects, accumulating the ids of
sessions created along the way. -/
inductive Effs (cfg : Config) : ServerState → ServerState → List String → Prop where
  | nil (st : ServerState) : Effs cfg st st []
  | cons {st st₁ st₂ : ServerState} {ids₁ ids₂ : List String} :
      Prim cfg st st₁ ids₁ → Effs cfg st₁ st₂ ids₂ →
      Effs cfg st st₂ (ids₁ ++ ids₂)

/-- Configuration with the source's default values
(`MAX_CONTAINERS = 100`, `SESSION_TIMEOUT = 3600000`). -/
def cfgEx : Config := ⟨100, 3600000⟩

/-- A real-mode session owned by web user alice. -/
def aliceSession : Session :=
  ⟨"alice", "ip", "c1", 0, 0, some "alice", some "S", false, 0, []⟩

/-- A mock-mode session owned by web user alice. -/
def aliceMockSession : Session :=
  ⟨"alice", "ip", "mock-container-m1", 0, 0, some "alice", some "S", true,
    0, []⟩

/-- Server holding the single real session `s1`. -/
def stOne : ServerState := ⟨[("s1", aliceSession)], 1⟩

/-- Server holding the single mock session `s1`. -/
def stMock : ServerState := ⟨[("s1", aliceMockSession)], 1⟩

/-- Execute-command request by alice on her own session `s1`, with the
Docker exec succeeding. -/
def opEx : Op :=
  .webExec ⟨"alice", false⟩ (some "ls") (some "s1") 0 (.ok "out" 0) true

/-- One execute-command request by alice with command text `c<k>`. -/
def execOp (k : Nat) : Op :=
  .webExec ⟨"alice", false⟩ (some ("c" ++ toString k)) (some "s1") 0
    (.ok "out" 0) true

/-- Create session `s1` for alice, then run the 11 commands
`c1` … `c11` on it. -/
def ops11 : List Op :=
  .webCreate "alice" (some "S") "s1" "ip" 0 (.ok "cont1") "m" ::
    (List.range 11).map (fun k => execOp (k + 1))

theorem getS_putS_self (l : Registry) (k : String) (v : Session) :
    getS (putS l k v) k = some v := by
  induction l with
  | nil => simp [putS, getS]
  | cons p rest ih =>
      obtain ⟨a, b⟩ := p
      by_cases h : a = k
      · simp [putS, h, getS]
      · simp [putS, h, getS, ih]

theorem getS_putS_ne (l : Registry) (k k' : String) (v : Session)
    (h : k' ≠ k) : getS (putS l k v) k' = getS l k' := by
  induction l with
  | nil => simp [putS, getS, Ne.symm h]
  | cons p rest ih =>
      obtain ⟨a, b⟩ := p
      by_cases ha : a = k
      · subst ha
        simp [putS, getS, Ne.symm h]
      · simp [putS, ha, getS, ih]

theorem getS_putS_cases (l : Registry) (k x : String) (v s : Session)
    (h : getS (putS l k v) x = some s) :
    (x = k ∧ s = v) ∨ (x ≠ k ∧ getS l x = some s) := by
  by_cases hx : x = k
  · subst hx
    rw [getS_putS_self] at h
    exact Or.inl ⟨rfl, (Option.some_injective _ h).symm⟩
  · rw [getS_putS_ne l k x v hx] at h
    exact Or.inr ⟨hx, h⟩

theorem putS_length_le (l : Registry) (k : String) (v : Session) :
    (putS l k v).length ≤ l.length + 1 := by
  induction l with
  | nil => simp [putS]
  | cons p rest ih =>
      obtain ⟨a, b⟩ := p
      by_cases h : a = k
      · simp [putS, h]
      · simp only [putS, if_neg h, List.length_cons]
        omega

theorem putS_keys_of_get (l : Registry) (k : String) (v s : Session)
    (h : getS l k = some s) :
    (putS l k v).map Prod.fst = l.map Prod.fst := by
  induction l with
  | nil => simp [getS] at h
  | cons p rest ih =>
      obtain ⟨a, b⟩ := p
      by_cases ha : a = k
      · simp [putS, ha]
      · simp only [getS, if_neg ha] at h
        simp [putS, ha, ih h]

theorem putS_length_of_get (l : Registry) (k : String) (v s : Session)
    (h : getS l k = some s) : (putS l k v).length = l.length := by
  have := putS_keys_of_get l k v s h
  have h1 : ((putS l k v).map Prod.fst).length = (l.map Prod.fst).length :=
    by rw [this]
  simpa using h1

theorem putS_of_get_none (l : Registry) (k : String) (v : Session)
    (h : getS l k = none) : putS l k v = l ++ [(k, v)] := by
  induction l with
  | nil => simp [putS]
  | cons p rest ih =>
      obtain ⟨a, b⟩ := p
      by_cases ha : a = k
      · simp [getS, ha] at h
      · simp only [getS, if_neg ha] at h
        simp [putS, ha, ih h]

theorem getS_none_of_not_mem (l : Registry) (k : String)
    (h : k ∉ l.map Prod.fst) : getS l k = none := by
  induction l with
  | nil => simp [getS]
  | cons p rest ih =>
      obtain ⟨a, b⟩ := p
      simp only [List.map_cons, List.mem_cons, not_or] at h
      simp only [getS, if_neg (fun hh : a = k => h.1 hh.symm)]
      exact ih h.2

theorem not_mem_of_getS_none (l : Registry) (k : String)
    (h : getS l k = none) : k ∉ l.map Prod.fst := by
  induction l with
  | nil => simp
  | cons p rest ih =>
      obtain ⟨a, b⟩ := p
      by_cases ha : a = k
      · simp [getS, ha] at h
      · simp only [getS, if_neg ha] at h
        simp only [List.map_cons, List.mem_cons, not_or]
        exact ⟨fun hh => ha hh.symm, ih h⟩

theorem delS_sublist (l : Registry) (k : String) :
    (delS l k).Sublist l := by
  induction l with
  | nil => simp [delS]
  | cons p rest ih =>
      obtain ⟨a, b⟩ := p
      by_cases ha : a = k
      · simp only [delS, if_pos ha]
        exact ih.trans (List.sublist_cons_self _ _)
      · simp only [delS, if_neg ha]
        exact ih.cons₂ _

theorem delS_length_le (l : Registry) (k : String) :
    (delS l k).length ≤ l.length :=
  (delS_sublist l k).length_le

theorem getS_delS_self (l : Registry) (k : String) :
    getS (delS l k) k = none := by
  induction l with
  | nil => simp [delS, getS]
  | cons p rest ih =>
      obtain ⟨a, b⟩ := p
      by_cases ha : a = k
      · simp [delS, ha, ih]
      · simp [delS, ha, getS, ih]

theorem getS_delS_ne (l : Registry) (k k' : String) (h : k' ≠ k) :
    getS (delS l k) k' = getS l k' := by
  induction l with
  | nil => simp [delS]
  | cons p rest ih =>
      obtain ⟨a, b⟩ := p
      by_cases ha : a = k
      · subst ha
        simp [delS, getS, Ne.symm h, ih]
      · simp [delS, ha, getS, ih]

theorem getS_delS_some (l : Registry) (k x : String) (s : Session)
    (h : getS (delS l k) x = some s) : getS l x = some s := by
  by_cases hx : x = k
  · subst hx
    rw [getS_delS_self] at h
    exact absurd h (by simp)
  · rwa [getS_delS_ne l k x hx] at h

theorem delS_of_get_none (l : Registry) (k : String)
    (h : getS l k = none) : delS l k = l := by
  induction l with
  | nil => simp [delS]
  | cons p rest ih =>
      obtain ⟨a, b⟩ := p
      by_cases ha : a = k
      · simp [getS, ha] at h
      · simp only [getS, if_neg ha] at h
        simp [delS, ha, ih h]

theorem delS_length_lt (l : Registry) (k : String) (s : Session)
    (h : getS l k = some s) : (delS l k).length < l.length := by
  induction l with
  | nil => simp [getS] at h
  | cons p rest ih =>
      obtain ⟨a, b⟩ := p
      by_cases ha : a = k
      · simp only [delS, if_pos ha, List.length_cons]
        exact Nat.lt_succ_of_le (delS_length_le rest k)
      · simp only [getS, if_neg ha] at h
        simp only [delS, if_neg ha, List.length_cons]
        exact Nat.succ_lt_succ (ih h)

theorem delS_length_nodup (l : Registry) (k : String) (s : Session)
    (hn : (l.map Prod.fst).Nodup) (h : getS l k = some s) :
    (delS l k).length + 1 = l.length := by
  induction l with
  | nil => simp [getS] at h
  | cons p rest ih =>
      obtain ⟨a, b⟩ := p
      simp only [List.map_cons, List.nodup_cons] at hn
      by_cases ha : a = k
      · subst ha
        have hrest : getS rest a = none :=
          getS_none_of_not_mem rest a hn.1
        simp [delS, delS_of_get_none rest a hrest]
      · simp only [getS, if_neg ha] at h
        simp only [delS, if_neg ha, List.length_cons]
        have := ih hn.2 h
        omega

theorem cleanupSession_eq_none {st : ServerState} {sid : String}
    (dok : Bool) (h : getS st.sessions sid = none) :
    cleanupSession st sid dok = st := by
  unfold cleanupSession
  rw [h]

theorem cleanupSession_eq_some_true {st : ServerState} {sid : String}
    {s : Session} (h : getS st.sessions sid = some s) :
    cleanupSession st sid true =
      ⟨delS st.sessions sid, st.containerCount - 1⟩ := by
  unfold cleanupSession
  rw [h]
  simp

theorem cleanupSession_eq_some_false {st : ServerState} {sid : String}
    {s : Session} (h : getS st.sessions sid = some s) :
    cleanupSession st sid false = st := by
  unfold cleanupSession
  rw [h]
  simp

theorem cleanupSession_spec (st : ServerState) (sid : String) (dok : Bool) :
    cleanupSession st sid dok = st ∨
      ∃ s, getS st.sessions sid = some s ∧ dok = true ∧
        cleanupSession st sid dok =
          ⟨delS st.sessions sid, st.containerCount - 1⟩ := by
  cases hg : getS st.sessions sid with
  | none => exact Or.inl (cleanupSession_eq_none dok hg)
  | some s =>
      cases dok with
      | false => exact Or.inl (cleanupSession_eq_some_false hg)
      | true => exact Or.inr ⟨s, rfl, rfl, cleanupSession_eq_some_true hg⟩

theorem Effs.single {cfg : Config} {st st' : ServerState}
    {ids : List String} (p : Prim cfg st st' ids) : Effs cfg st st' ids := by
  simpa using Effs.cons p (Effs.nil st')

theorem Prim.capInv {cfg : Config} {st st' : ServerState}
    {ids : List String} (p : Prim cfg st st' ids) (h : CapInv cfg st) :
    CapInv cfg st' := by
  obtain ⟨h1, h2⟩ := h
  cases p with
  | same => exact ⟨h1, h2⟩
  | create sid s hcap hlogs =>
      have hle := putS_length_le st.sessions sid s
      refine ⟨?_, ?_⟩ <;> dsimp only <;> omega
  | touch sid s v hget hm hl =>
      have hlen := putS_length_of_get st.sessions sid v s hget
      refine ⟨?_, ?_⟩ <;> dsimp only
      · rw [hlen]
        exact h1
      · exact h2
  | clean sid dok =>
      rcases cleanupSession_spec st sid dok with hc | ⟨s, hg, _, hc⟩
      · rw [hc]
        exact ⟨h1, h2⟩
      · rw [hc]
        have hlt := delS_length_lt st.sessions sid s hg
        refine ⟨?_, ?_⟩ <;> dsimp only <;> omega

theorem Prim.domain {cfg : Config} {st st' : ServerState}
    {ids : List String} (p : Prim cfg st st' ids) (x : String) :
    getS st'.sessions x ≠ none → getS st.sessions x ≠ none ∨ x ∈ ids := by
  intro hx
  cases p with
  | same => exact Or.inl hx
  | create sid s hcap hlogs =>
      dsimp only at hx
      cases hs : getS (putS st.sessions sid s) x with
      | none => exact absurd hs hx
      | some sx =>
          rcases getS_putS_cases st.sessions sid x s sx hs with
            ⟨rfl, _⟩ | ⟨hne, hold⟩
          · exact Or.inr (by simp)
          · exact Or.inl (by simp [hold])
  | touch sid s v hget hm hl =>
      dsimp only at hx
      cases hs : getS (putS st.sessions sid v) x with
      | none => exact absurd hs hx
      | some sx =>
          rcases getS_putS_cases st.sessions sid x v sx hs with
            ⟨rfl, _⟩ | ⟨hne, hold⟩
          · exact Or.inl (by simp [hget])
          · exact Or.inl (by simp [hold])
  | clean sid dok =>
      rcases cleanupSession_spec st sid dok with hc | ⟨s, hg, _, hc⟩
      · rw [hc] at hx
        exact Or.inl hx
      · rw [hc] at hx
        dsimp only at hx
        cases hs : getS (delS st.sessions sid) x with
        | none => exact absurd hs hx
        | some sx =>
            exact Or.inl (by simp [getS_delS_some st.sessions sid x sx hs])

theorem Effs.domainChain {cfg : Config} {st st' : ServerState}
    {ids : List String} (e : Effs cfg st st' ids) (x : String) :
    getS st'.sessions x ≠ none → getS st.sessions x ≠ none ∨ x ∈ ids := by
  induction e with
  | nil st => exact fun h => Or.inl h
  | cons p rest ih =>
      intro hx
      rcases ih hx with h1 | h1
      · rcases p.domain x h1 with h2 | h2
        · exact Or.inl h2
        · exact Or.inr (by simp [h2])
      · exact Or.inr (by simp [h1])

theorem Effs.capInvChain {cfg : Config} {st st' : ServerState}
    {ids : List String} (e : Effs cfg st st' ids) (h : CapInv cfg st) :
    CapInv cfg st' := by
  induction e with
  | nil st => exact h
  | cons p rest ih => exact ih (p.capInv h)

theorem pushLog_length_le (logs : List LogEntry) (e : LogEntry)
    (h : logs.length ≤ 10) : (pushLog logs e).length ≤ 10 := by
  unfold pushLog
  dsimp only
  split
  · simpa using h
  · next hgt =>
      simp only [List.length_cons] at hgt ⊢
      omega

theorem setHeadLog_length (logs : List LogEntry) (f : LogEntry → LogEntry) :
    (setHeadLog logs f).length = logs.length := by
  cases logs <;> simp [setHeadLog]

theorem Prim.mock {cfg : Config} {st st' : ServerState} {ids : List String}
    (p : Prim cfg st st' ids) (sid : String) (hni : sid ∉ ids)
    {s s' : Session} (hs : getS st.sessions sid = some s)
    (hm : s.isMock = true) (hs' : getS st'.sessions sid = some s') :
    s'.isMock = true := by
  cases p with
  | same =>
      rw [hs] at hs'
      cases hs'
      exact hm
  | create sid₀ s₀ hcap hlogs =>
      have hne : sid ≠ sid₀ := by simpa using hni
      dsimp only at hs'
      rw [getS_putS_ne st.sessions sid₀ sid s₀ hne, hs] at hs'
      cases hs'
      exact hm
  | touch sid₀ s₀ v hget hmk hl =>
      dsimp only at hs'
      by_cases he : sid = sid₀
      · subst he
        rw [hs] at hget
        cases hget
        rw [getS_putS_self] at hs'
        cases hs'
        exact hmk hm
      · rw [getS_putS_ne st.sessions sid₀ sid v he, hs] at hs'
        cases hs'
        exact hm
  | clean sid₀ dok =>
      rcases cleanupSession_spec st sid₀ dok with hc | ⟨s₁, hg, _, hc⟩
      · rw [hc, hs] at hs'
        cases hs'
        exact hm
      · rw [hc] at hs'
        dsimp only at hs'
        by_cases he : sid = sid₀
        · subst he
          rw [getS_delS_self] at hs'
          exact absurd hs' (by simp)
        · rw [getS_delS_ne st.sessions sid₀ sid he, hs] at hs'
          cases hs'
          exact hm

theorem Prim.logsInv {cfg : Config} {st st' : ServerState}
    {ids : List String} (p : Prim cfg st st' ids) (h : LogsInv st) :
    LogsInv st' := by
  cases p with
  | same => exact h
  | create sid s hcap hlogs =>
      intro x sx hx
      dsimp only at hx
      rcases getS_putS_cases st.sessions sid x s sx hx with
        ⟨rfl, rfl⟩ | ⟨_, hold⟩
      · simp [hlogs]
      · exact h x sx hold
  | touch sid s v hget hm hl =>
      intro x sx hx
      dsimp only at hx
      rcases getS_putS_cases st.sessions sid x v sx hx with
        ⟨rfl, rfl⟩ | ⟨_, hold⟩
      · exact hl (h x s hget)
      · exact h x sx hold
  | clean sid dok =>
      rcases cleanupSession_spec st sid dok with hc | ⟨s₁, hg, _, hc⟩
      · rw [hc]
        exact h
      · rw [hc]
        intro x sx hx
        dsimp only at hx
        exact h x sx (getS_delS_some st.sessions sid x sx hx)

theorem Prim.balanced {cfg : Config} {st st' : ServerState}
    {ids : List String} (p : Prim cfg st st' ids) (hn : NodupKeys st)
    (hb : Balanced st) (hf : ∀ id ∈ ids, getS st.sessions id = none) :
    NodupKeys st' ∧ Balanced st' := by
  cases p with
  | same => exact ⟨hn, hb⟩
  | create sid s hcap hlogs =>
      have hfresh : getS st.sessions sid = none := hf sid (by simp)
      have happ := putS_of_get_none st.sessions sid s hfresh
      have hmem := not_mem_of_getS_none st.sessions sid hfresh
      constructor
      · show ((putS st.sessions sid s).map Prod.fst).Nodup
        rw [happ]
        simp only [List.map_append, List.map_cons, List.map_nil]
        rw [List.nodup_append]
        exact ⟨hn, List.nodup_singleton sid,
          by simpa [List.disjoint_singleton] using hmem⟩
      · show st.containerCount + 1 = ((putS st.sessions sid s).length : Int)
        rw [happ]
        simp only [List.length_append, List.length_cons, List.length_nil]
        rw [hb]
        push_cast
        ring
  | touch sid s v hget hm hl =>
      have hkeys := putS_keys_of_get st.sessions sid v s hget
      have hlen := putS_length_of_get st.sessions sid v s hget
      constructor
      · show ((putS st.sessions sid v).map Prod.fst).Nodup
        rw [hkeys]
        exact hn
      · show st.containerCount = ((putS st.sessions sid v).length : Int)
        rw [hlen]
        exact hb
  | clean sid dok =>
      rcases cleanupSession_spec st sid dok with hc | ⟨s₁, hg, _, hc⟩
      · rw [hc]
        exact ⟨hn, hb⟩
      · rw [hc]
        have hdel := delS_length_nodup st.sessions sid s₁ hn hg
        constructor
        · show ((delS st.sessions sid).map Prod.fst).Nodup
          exact hn.sublist ((delS_sublist st.sessions sid).map Prod.fst)
        · show st.containerCount - 1 = ((delS st.sessions sid).length : Int)
          have hb' : st.containerCount = (st.sessions.length : Int) := hb
          omega

theorem Effs.logsInvChain {cfg : Config} {st st' : ServerState}
    {ids : List String} (e : Effs cfg st st' ids) (h : LogsInv st) :
    LogsInv st' := by
  induction e with
  | nil st => exact h
  | cons p rest ih => exact ih (p.logsInv h)

theorem Effs.mockChain {cfg : Config} {st st' : ServerState} {ids : List String}
    (e : Effs cfg st st' ids) (sid : String) (hni : sid ∉ ids)
    {s s' : Session} (hs : getS st.sessions sid = some s)
    (hm : s.isMock = true) (hs' : getS st'.sessions sid = some s') :
    s'.isMock = true := by
  induction e generalizing s with
  | nil st =>
      rw [hs] at hs'
      cases hs'
      exact hm
  | cons p rest ih =>
      rename_i st₀ st₁ st₂ ids₁ ids₂
      simp only [List.mem_append, not_or] at hni
      cases h1 : getS st₁.sessions sid with
      | none =>
          rcases rest.domainChain sid (by simp [hs']) with h2 | h2
          · exact absurd h1 h2
          · exact absurd h2 hni.2
      | some s₁ =>
          exact ih hni.2 h1 (p.mock sid hni.1 hs hm h1) hs'

theorem Effs.balancedChain {cfg : Config} {st st' : ServerState}
    {ids : List String} (e : Effs cfg st st' ids) (hns : ids.Nodup)
    (hf : ∀ id ∈ ids, getS st.sessions id = none)
    (h : NodupKeys st ∧ Balanced st) : NodupKeys st' ∧ Balanced st' := by
  induction e with
  | nil st => exact h
  | cons p rest ih =>
      rename_i st₀ st₁ st₂ ids₁ ids₂
      rw [List.nodup_append] at hns
      have h1 := p.balanced h.1 h.2
        (fun id hid => hf id (List.mem_append_left _ hid))
      refine ih hns.2.1 ?_ h1
      intro id hid
      cases hcase : getS st₁.sessions id with
      | none => rfl
      | some sx =>
          rcases p.domain id (by simp [hcase]) with h2 | h2
          · exact absurd (hf id (List.mem_append_right _ hid)) h2
          · exact absurd hid (hns.2.2 h2)

theorem Effs.append {cfg : Config} {st st₁ st₂ : ServerState}
    {ids₁ ids₂ : List String} (e1 : Effs cfg st st₁ ids₁)
    (e2 : Effs cfg st₁ st₂ ids₂) : Effs cfg st st₂ (ids₁ ++ ids₂) := by
  induction e1 with
  | nil st => simpa using e2
  | cons p r ih => simpa [List.append_assoc] using Effs.cons p (ih e2)

theorem webCreateSession_effs (cfg : Config) (st : ServerState)
    (u : String) (n : Option String) (sid ip : String) (now : Nat)
    (dres : DockerCreateResult) (mu : String) :
    ∃ ids, Effs cfg st (webCreateSession cfg st u n sid ip now dres mu).2
      ids ∧ ids.Sublist [sid] := by
  unfold webCreateSession
  by_cases hcap : st.containerCount ≥ (cfg.maxContainers : Int)
  · simp only [if_pos hcap]
    exact ⟨[], Effs.nil st, by simp⟩
  · simp only [if_neg hcap]
    cases dres with
    | ok cid =>
        refine ⟨[sid], ?_, by simp⟩
        dsimp only
        exact Effs.single (Prim.create st sid _ (by omega) rfl)
    | sockErr m =>
        refine ⟨[sid], ?_, by simp⟩
        dsimp only
        exact Effs.single (Prim.create st sid _ (by omega) rfl)
    | otherErr m => exact ⟨[], Effs.nil st, by simp⟩

theorem legacyCreateSession_effs (cfg : Config) (st : ServerState)
    (u : Option String) (fu sid ip : String) (now : Nat)
    (dres : DockerCreateResult) :
    ∃ ids, Effs cfg st (legacyCreateSession cfg st u fu sid ip now dres).2
      ids ∧ ids.Sublist [sid] := by
  unfold legacyCreateSession
  by_cases hcap : st.containerCount ≥ (cfg.maxContainers : Int)
  · simp only [if_pos hcap]
    exact ⟨[], Effs.nil st, by simp⟩
  · simp only [if_neg hcap]
    cases dres with
    | ok cid =>
        refine ⟨[sid], ?_, by simp⟩
        dsimp only
        exact Effs.single (Prim.create st sid _ (by omega) rfl)
    | sockErr m => exact ⟨[], Effs.nil st, by simp⟩
    | otherErr m => exact ⟨[], Effs.nil st, by simp⟩

theorem webExecuteCommand_effs (cfg : Config) (st : ServerState)
    (req : Requester) (c sid? : Option String) (now : Nat)
    (dres : DockerExecResult) (dok : Bool) :
    Effs cfg st (webExecuteCommand cfg st req c sid? now dres dok).2 [] := by
  unfold webExecuteCommand
  split
  · exact Effs.nil st
  · split
    · exact Effs.nil st
    · next sid =>
        split
        · exact Effs.nil st
        · next s hget =>
            split
            · dsimp only
              exact Effs.single (Prim.clean st sid dok)
            · split
              · exact Effs.nil st
              · cases dres <;>
                  · dsimp only
                    split <;>
                      refine Effs.single (Prim.touch st sid s _ hget
                          ?_ ?_) <;>
                        first
                          | (intro hlen
                             rw [setHeadLog_length]
                             exact pushLog_length_le _ _ hlen)
                          | (intro hh
                             first
                               | exact hh
                               | rfl)

theorem legacyExecCommand_effs (cfg : Config) (st : ServerState)
    (sid? c : Option String) (now : Nat) (dres : DockerExecResult)
    (dok : Bool) :
    Effs cfg st (legacyExecCommand cfg st sid? c now dres dok).2 [] := by
  unfold legacyExecCommand
  split
  · exact Effs.nil st
  · next sid =>
      split
      · exact Effs.nil st
      · next s hget =>
          split
          · dsimp only
            exact Effs.single (Prim.clean st sid dok)
          · cases dres <;>
              · dsimp only
                split <;>
                  (try split) <;>
                    exact Effs.single (Prim.touch st sid s _ hget
                      (fun hh => hh) (fun hh => hh))

theorem legacyCompatRun_state (st : ServerState) (sid : String)
    (s : Session) (now : Nat) (dres : DockerExecResult) :
    (legacyCompatRun st sid s now dres).2 =
      ⟨putS st.sessions sid { s with lastAccessed := now },
        st.containerCount⟩ := by
  unfold legacyCompatRun
  cases dres <;> dsimp only <;> (try split) <;> rfl

theorem legacyCompatExec_effs (cfg : Config) (st : ServerState)
    (dev : String) (c : Option String) (nsid ip : String) (now : Nat)
    (dcres : DockerCreateResult) (dres : DockerExecResult) :
    ∃ ids,
      Effs cfg st (legacyCompatExec cfg st dev c nsid ip now dcres dres).2
        ids ∧ ids.Sublist [nsid] := by
  unfold legacyCompatExec
  split
  · exact ⟨[], Effs.nil st, by simp⟩
  · split
    · next sid hfind =>
        split
        · next s hget =>
            rw [legacyCompatRun_state]
            exact ⟨[], Effs.single (Prim.touch st sid s _ hget
              (fun hh => hh) (fun hh => hh)), by simp⟩
        · exact ⟨[], Effs.nil st, by simp⟩
    · by_cases hcap : st.containerCount ≥ (cfg.maxContainers : Int)
      · simp only [if_pos hcap]
        exact ⟨[], Effs.nil st, by simp⟩
      · simp only [if_neg hcap]
        cases dcres with
        | ok cid =>
            dsimp only
            rw [legacyCompatRun_state]
            refine ⟨[nsid], ?_, by simp⟩
            have p1 : Prim cfg st
                ⟨putS st.sessions nsid
                    ⟨dev, ip, cid, now, now, none, none, false, 0, []⟩,
                  st.containerCount + 1⟩ [nsid] :=
              Prim.create st nsid _ (by omega) rfl
            exact Effs.cons p1 (Effs.single (Prim.touch _ nsid
              ⟨dev, ip, cid, now, now, none, none, false, 0, []⟩ _
              (getS_putS_self st.sessions nsid _)
              (fun hh => hh) (fun hh => hh)))
        | sockErr m => exact ⟨[], Effs.nil st, by simp⟩
        | otherErr m => exact ⟨[], Effs.nil st, by simp⟩

theorem webDeleteSession_effs (cfg : Config) (st : ServerState)
    (req : Requester) (sid : String) (dok : Bool) :
    Effs cfg st (webDeleteSession st req sid dok).2 [] := by
  unfold webDeleteSession
  split
  · exact Effs.nil st
  · split
    · exact Effs.nil st
    · dsimp only
      exact Effs.single (Prim.clean st sid dok)

theorem legacyDeleteSession_effs (cfg : Config) (st : ServerState)
    (sid? : Option String) (now : Nat) (dok : Bool) :
    Effs cfg st (legacyDeleteSession cfg st sid? now dok).2 [] := by
  unfold legacyDeleteSession
  split
  · exact Effs.nil st
  · next sid =>
      split
      · exact Effs.nil st
      · next s hget =>
          split
          · dsimp only
            exact Effs.single (Prim.clean st sid dok)
          · dsimp only
            exact Effs.cons (Prim.touch st sid s
              { s with lastAccessed := now } hget
              (fun hh => hh) (fun hh => hh))
              (Effs.single (Prim.clean _ sid dok))

theorem legacyGetSession_effs (cfg : Config) (st : ServerState)
    (sid? : Option String) (now : Nat) (dok : Bool) :
    Effs cfg st (legacyGetSession cfg st sid? now dok).2 [] := by
  unfold legacyGetSession
  split
  · exact Effs.nil st
  · next sid =>
      split
      · exact Effs.nil st
      · next s hget =>
          split
          · dsimp only
            exact Effs.single (Prim.clean st sid dok)
          · dsimp only
            exact Effs.single (Prim.touch st sid s _ hget
              (fun hh => hh) (fun hh => hh))

theorem reapStep_effs (cfg : Config) (now : Nat) (dok : String → Bool)
    (st : ServerState) (i : String) :
    Effs cfg st (reapStep cfg now dok st i) [] := by
  unfold reapStep
  split
  · exact Effs.nil st
  · split
    · exact Effs.single (Prim.clean st i (dok i))
    · exact Effs.nil st

theorem reapFold_effs (cfg : Config) (now : Nat) (dok : String → Bool) :
    ∀ (ids : List String) (st : ServerState),
      Effs cfg st (List.foldl (reapStep cfg now dok) st ids) [] := by
  intro ids
  induction ids with
  | nil => intro st; exact Effs.nil st
  | cons i rest ih =>
      intro st
      simpa using (reapStep_effs cfg now dok st i).append
        (ih (reapStep cfg now dok st i))

theorem reapSessions_effs (cfg : Config) (st : ServerState) (now : Nat)
    (dok : String → Bool) :
    Effs cfg st (reapSessions cfg st now dok) [] :=
  reapFold_effs cfg now dok (st.sessions.map Prod.fst) st

theorem opCreatedIds_nodup (op : Op) : (opCreatedIds op).Nodup := by
  cases op <;> simp [opCreatedIds]

theorem runOp_effs (cfg : Config) (st : ServerState) (op : Op) :
    ∃ ids, Effs cfg st (runOp cfg st op) ids ∧
      ids.Sublist (opCreatedIds op) := by
  cases op with
  | webCreate u n sid ip now d mu =>
      simpa [runOp, opCreatedIds] using
        webCreateSession_effs cfg st u n sid ip now d mu
  | legacyCreate u fu sid ip now d =>
      simpa [runOp, opCreatedIds] using
        legacyCreateSession_effs cfg st u fu sid ip now d
  | webExec r c sid? now d dok =>
      exact ⟨[], webExecuteCommand_effs cfg st r c sid? now d dok, by simp⟩
  | legacyExec sid? c now d dok =>
      exact ⟨[], legacyExecCommand_effs cfg st sid? c now d dok, by simp⟩
  | legacyCompat dev c nsid ip now dc d =>
      simpa [runOp, opCreatedIds] using
        legacyCompatExec_effs cfg st dev c nsid ip now dc d
  | webDelete r sid dok =>
      exact ⟨[], webDeleteSession_effs cfg st r sid dok, by simp⟩
  | legacyDelete sid? now dok =>
      exact ⟨[], legacyDeleteSession_effs cfg st sid? now dok, by simp⟩
  | legacyGet sid? now dok =>
      exact ⟨[], legacyGetSession_effs cfg st sid? now dok, by simp⟩
  | reap now dok =>
      exact ⟨[], reapSessions_effs cfg st now dok, by simp⟩

theorem foldl_capInv (cfg : Config) :
    ∀ (ops : List Op) (st : ServerState), CapInv cfg st →
      CapInv cfg (ops.foldl (runOp cfg) st) := by
  intro ops
  induction ops with
  | nil => intro st h; exact h
  | cons op rest ih =>
      intro st h
      obtain ⟨ids, e, _⟩ := runOp_effs cfg st op
      exact ih _ (e.capInvChain h)

theorem runOps_capInv (cfg : Config) (ops : List Op) :
    CapInv cfg (runOps cfg ops) := by
  refine foldl_capInv cfg ops initialState ⟨?_, ?_⟩
  · simp [initialState]
  · simp [initialState]

theorem foldl_logsInv (cfg : Config) :
    ∀ (ops : List Op) (st : ServerState), LogsInv st →
      LogsInv (ops.foldl (runOp cfg) st) := by
  intro ops
  induction ops with
  | nil => intro st h; exact h
  | cons op rest ih =>
      intro st h
      obtain ⟨ids, e, _⟩ := runOp_effs cfg st op
      exact ih _ (e.logsInvChain h)

theorem runOps_logsInv (cfg : Config) (ops : List Op) :
    LogsInv (runOps cfg ops) := by
  refine foldl_logsInv cfg ops initialState ?_
  intro sid s h
  exact absurd h (by simp [initialState, getS])

theorem foldl_balanced (cfg : Config) :
    ∀ (ops : List Op) (st : ServerState),
      (opsCreatedIds ops).Nodup →
      (∀ id ∈ opsCreatedIds ops, getS st.sessions id = none) →
      NodupKeys st ∧ Balanced st →
      NodupKeys (ops.foldl (runOp cfg) st) ∧
        Balanced (ops.foldl (runOp cfg) st) := by
  intro ops
  induction ops with
  | nil => intro st _ _ h; exact h
  | cons op rest ih =>
      intro st hns hf h
      simp only [opsCreatedIds, List.nodup_append] at hns
      obtain ⟨ids, e, hsub⟩ := runOp_effs cfg st op
      have hidsnodup : ids.Nodup := (opCreatedIds_nodup op).sublist hsub
      have h1 := e.balancedChain hidsnodup
        (fun id hid => hf id (List.mem_append_left _ (hsub.subset hid))) h
      refine ih _ hns.2.1 ?_ h1
      intro id hid
      cases hcase : getS (runOp cfg st op).sessions id with
      | none => rfl
      | some sx =>
          rcases e.domainChain id (by simp [hcase]) with h2 | h2
          · exact absurd (hf id (List.mem_append_right _ hid)) h2
          · exact absurd hid (hns.2.2 (hsub.subset h2))

theorem runOps_balanced (cfg : Config) (ops : List Op)
    (h : (opsCreatedIds ops).Nodup) : Balanced (runOps cfg ops) := by
  refine (foldl_balanced cfg ops initialState h (fun id _ => rfl)
    ⟨?_, ?_⟩).2
  · simp [NodupKeys, initialState]
  · simp [Balanced, initialState]

/-- C1: over every request history (web and legacy creates, executes,
terminations, reaper sweeps), the number of registered sessions never
exceeds `MAX_CONTAINERS`; and whenever `containerCount` is already at
or above the bound, both create handlers answer 503 Capacity and leave
the registry and the counter untouched. -/
theorem capacity_bound_and_rejection (cfg : Config) :
    (∀ ops : List Op,
      (runOps cfg ops).sessions.length ≤ cfg.maxContainers) ∧
    (∀ (st : ServerState) (u : String) (n : Option String) (sid ip : String)
      (now : Nat) (d : DockerCreateResult) (mu : String),
      st.containerCount ≥ (cfg.maxContainers : Int) →
      webCreateSession cfg st u n sid ip now d mu =
        (.capacityExceeded, st)) ∧
    (∀ (st : ServerState) (u : Option String) (fu sid ip : String)
      (now : Nat) (d : DockerCreateResult),
      st.containerCount ≥ (cfg.maxContainers : Int) →
      legacyCreateSession cfg st u fu sid ip now d =
        (.capacityExceeded, st)) := by
  refine ⟨?_, ?_, ?_⟩
  · intro ops
    obtain ⟨h1, h2⟩ := runOps_capInv cfg ops
    omega
  · intro st u n sid ip now d mu hcap
    unfold webCreateSession
    rw [if_pos hcap]
  · intro st u fu sid ip now d hcap
    unfold legacyCreateSession
    rw [if_pos hcap]

/-- Witness for C1 at concrete inputs: the empty history respects the
bound 3, and a create against a full server (counter 5 ≥ 3) is
rejected unchanged. -/
theorem capacity_bound_and_rejection_witness :
    (runOps ⟨3, 1000⟩ []).sessions.length ≤ 3 ∧
    webCreateSession ⟨3, 1000⟩ ⟨[], 5⟩ "alice" none "s1" "ip" 0
      (.ok "c1") "m1" = (.capacityExceeded, ⟨[], 5⟩) :=
  ⟨(capacity_bound_and_rejection ⟨3, 1000⟩).1 [],
    (capacity_bound_and_rejection ⟨3, 1000⟩).2.1 ⟨[], 5⟩ "alice" none
      "s1" "ip" 0 (.ok "c1") "m1" (by decide)⟩

/-- C2: the capacity counter moves in lockstep with the registry.
Every successful creation — real web, mock-fallback web, legacy —
inserts the session and increments the counter exactly once, in the
same step.  `cleanupSession` removes the session and decrements
together when the container teardown succeeds, does neither when it
fails, and is a no-op on an absent session, so repeating it never
decrements twice.  Consequently, over any history whose generated
session ids are distinct, the counter always equals the number of
registered sessions: no slot is double-counted or lost. -/
theorem capacity_accounting (cfg : Config) :
    (∀ (st : ServerState) (u : String) (n : Option String)
      (sid ip cid mu : String) (now : Nat),
      st.containerCount < (cfg.maxContainers : Int) →
      (webCreateSession cfg st u n sid ip now (.ok cid) mu).2 =
        ⟨putS st.sessions sid
          ⟨u, ip, cid, now, now, some u,
            some (n.getD ("Session-" ++ sid.take 8)), false, 0, []⟩,
          st.containerCount + 1⟩) ∧
    (∀ (st : ServerState) (u : String) (n : Option String)
      (sid ip m mu : String) (now : Nat),
      st.containerCount < (cfg.maxContainers : Int) →
      (webCreateSession cfg st u n sid ip now (.sockErr m) mu).2 =
        ⟨putS st.sessions sid
          ⟨u, ip, mockContainerId mu, now, now, some u,
            some (n.getD ("Session-" ++ sid.take 8)), true, 0, []⟩,
          st.containerCount + 1⟩) ∧
    (∀ (st : ServerState) (u : Option String) (fu sid ip cid : String)
      (now : Nat),
      st.containerCount < (cfg.maxContainers : Int) →
      (legacyCreateSession cfg st u fu sid ip now (.ok cid)).2 =
        ⟨putS st.sessions sid
          ⟨u.getD fu, ip, cid, now, now, none, none, false, 0, []⟩,
          st.containerCount + 1⟩) ∧
    (∀ (st : ServerState) (sid : String) (s : Session),
      getS st.sessions sid = some s →
      cleanupSession st sid true =
        ⟨delS st.sessions sid, st.containerCount - 1⟩ ∧
      cleanupSession st sid false = st) ∧
    (∀ (st : ServerState) (sid : String) (dok : Bool),
      getS st.sessions sid = none → cleanupSession st sid dok = st) ∧
    (∀ (st : ServerState) (sid : String) (dok : Bool),
      cleanupSession (cleanupSession st sid true) sid dok =
        cleanupSession st sid true) ∧
    (∀ ops : List Op, (opsCreatedIds ops).Nodup →
      (runOps cfg ops).containerCount =
        ((runOps cfg ops).sessions.length : Int)) := by
  refine ⟨?_, ?_, ?_, ?_, ?_, ?_, ?_⟩
  · intro st u n sid ip cid mu now hcap
    unfold webCreateSession
    rw [if_neg (by omega : ¬ st.containerCount ≥ (cfg.maxContainers : Int))]
  · intro st u n sid ip m mu now hcap
    unfold webCreateSession
    rw [if_neg (by omega : ¬ st.containerCount ≥ (cfg.maxContainers : Int))]
  · intro st u fu sid ip cid now hcap
    unfold legacyCreateSession
    rw [if_neg (by omega : ¬ st.containerCount ≥ (cfg.maxContainers : Int))]
  · intro st sid s h
    exact ⟨cleanupSession_eq_some_true h, cleanupSession_eq_some_false h⟩
  · intro st sid dok h
    exact cleanupSession_eq_none dok h
  · intro st sid dok
    cases hg : getS st.sessions sid with
    | none =>
        rw [cleanupSession_eq_none true hg, cleanupSession_eq_none dok hg]
    | some s =>
        rw [cleanupSession_eq_some_true hg]
        exact cleanupSession_eq_none dok
          (getS_delS_self st.sessions sid)
  · intro ops h
    exact runOps_balanced cfg ops h

/-- Witness for C2 at concrete inputs: tearing down the one-session
server removes `s1` and drops the counter to 0 when Docker succeeds,
leaves everything when Docker fails, is a no-op on an empty registry,
never double-decrements on repeat, and the empty history is balanced. -/
theorem capacity_accounting_witness :
    (webCreateSession cfgEx ⟨[], 0⟩ "alice" (some "S") "s1" "ip" 0
      (.ok "c1") "m1").2 =
      ⟨putS [] "s1" ⟨"alice", "ip", "c1", 0, 0, some "alice", some "S",
        false, 0, []⟩, 1⟩ ∧
    (cleanupSession stOne "s1" true = ⟨[], 0⟩ ∧
      cleanupSession stOne "s1" false = stOne) ∧
    cleanupSession ⟨[], 0⟩ "s1" true = ⟨[], 0⟩ ∧
    cleanupSession (cleanupSession stOne "s1" true) "s1" true =
      cleanupSession stOne "s1" true ∧
    (runOps cfgEx []).containerCount =
      ((runOps cfgEx []).sessions.length : Int) :=
  ⟨(capacity_accounting cfgEx).1 ⟨[], 0⟩ "alice" (some "S") "s1" "ip"
      "c1" "m1" 0 (by decide),
    (capacity_accounting cfgEx).2.2.2.1 stOne "s1" aliceSession rfl,
    (capacity_accounting cfgEx).2.2.2.2.1 ⟨[], 0⟩ "s1" true rfl,
    (capacity_accounting cfgEx).2.2.2.2.2.1 stOne "s1" true,
    (capacity_accounting cfgEx).2.2.2.2.2.2 [] (by simp [opsCreatedIds])⟩

/-- C3 counterexample: terminating an unknown (or already-terminated)
session id is NOT a no-op success — the `DELETE /api/session/:id`
handler answers 404 Session not found, an error response distinct from
the success response, against the claim's "no error is returned". -/
theorem terminate_unknown_is_error :
    (webDeleteSession ⟨[], 0⟩ ⟨"alice", false⟩ "nope" true).1 =
      DeleteResp.notFound ∧
    DeleteResp.notFound ≠ DeleteResp.deleted := by
  exact ⟨rfl, by decide⟩

/-- C3 amended: terminating an unknown or already-terminated session
returns a 404 Session-not-found ERROR (not a no-op success) and leaves
the state unchanged.  The capacity-decrement half of the claim holds:
the first successful termination removes the session and decrements
the counter once, and any repeated call finds nothing, changes nothing
and answers 404 — so across repeated calls the counter is decremented
exactly once. -/
theorem terminate_idempotent_counter (st : ServerState) (req : Requester)
    (sid : String) (s : Session)
    (hs : getS st.sessions sid = some s)
    (hauth : s.webUser = some req.username ∨ req.isAdmin = true) :
    webDeleteSession st req sid true =
      (.deleted, ⟨delS st.sessions sid, st.containerCount - 1⟩) ∧
    (∀ (st' : ServerState) (dok : Bool), getS st'.sessions sid = none →
      webDeleteSession st' req sid dok = (.notFound, st')) ∧
    webDeleteSession (webDeleteSession st req sid true).2 req sid true =
      (.notFound, (webDeleteSession st req sid true).2) := by
  have hcond : ¬(s.webUser ≠ some req.username ∧ req.isAdmin = false) := by
    rintro ⟨h1, h2⟩
    rcases hauth with h | h
    · exact h1 h
    · rw [h] at h2
      exact absurd h2 (by simp)
  have hmain : webDeleteSession st req sid true =
      (.deleted, ⟨delS st.sessions sid, st.containerCount - 1⟩) := by
    unfold webDeleteSession
    rw [hs]
    dsimp only
    rw [if_neg hcond, cleanupSession_eq_some_true hs]
  have hnone : ∀ (st' : ServerState) (dok : Bool),
      getS st'.sessions sid = none →
      webDeleteSession st' req sid dok = (.notFound, st') := by
    intro st' dok h
    unfold webDeleteSession
    rw [h]
  refine ⟨hmain, hnone, ?_⟩
  rw [hmain]
  exact hnone _ true (getS_delS_self st.sessions sid)

/-- Witness for C3's amended statement at concrete inputs: the owner
terminates `s1` (success, counter 1 → 0), and the repeat — equally a
call on an unknown id — answers 404 with nothing changed. -/
theorem terminate_idempotent_counter_witness :
    webDeleteSession stOne ⟨"alice", false⟩ "s1" true =
      (.deleted, ⟨[], 0⟩) ∧
    webDeleteSession ⟨[], 0⟩ ⟨"alice", false⟩ "s1" true =
      (.notFound, ⟨[], 0⟩) := by
  obtain ⟨h1, h2, _⟩ := terminate_idempotent_counter stOne
    ⟨"alice", false⟩ "s1" aliceSession rfl (Or.inl rfl)
  exact ⟨h1, h2 ⟨[], 0⟩ true rfl⟩

/-- C4: `executeCommand` on an expired session (idle longer than
`SESSION_TIMEOUT`) answers Session expired, and the entire state
change is exactly `cleanupSession` — the same teardown the idle
reaper's step performs, as the last conjunct shows — so the session is
removed from the registry, no command is dispatched, and
`lastAccessed`/`commandCount`/logs are never written (the handler
returns before those updates; all other sessions are untouched). -/
theorem exec_expired_teardown (cfg : Config) (st : ServerState)
    (req : Requester) (sid : String) (s : Session) (c : String)
    (now : Nat) (dres : DockerExecResult)
    (hs : getS st.sessions sid = some s) (hc : c ≠ "")
    (hex : now - s.lastAccessed > cfg.sessionTimeout) :
    webExecuteCommand cfg st req (some c) (some sid) now dres true =
      (.sessionExpired, cleanupSession st sid true) ∧
    getS (cleanupSession st sid true).sessions sid = none ∧
    (∀ x, x ≠ sid →
      getS (cleanupSession st sid true).sessions x =
        getS st.sessions x) ∧
    reapStep cfg now (fun _ => true) st sid =
      cleanupSession st sid true := by
  have hguard : ¬((some c : Option String) = none ∨
      (some c : Option String) = some "") := by
    simp [hc]
  refine ⟨?_, ?_, ?_, ?_⟩
  · unfold webExecuteCommand
    rw [if_neg hguard]
    dsimp only
    rw [hs]
    dsimp only
    rw [if_pos hex]
  · rw [cleanupSession_eq_some_true hs]
    dsimp only
    exact getS_delS_self st.sessions sid
  · intro x hx
    rw [cleanupSession_eq_some_true hs]
    dsimp only
    exact getS_delS_ne st.sessions sid x hx
  · unfold reapStep
    rw [hs]
    dsimp only
    rw [if_pos hex]

/-- Witness for C4 at concrete inputs: the hour-timeout session last
touched at time 0 is expired at time 4000000; the execute call answers
Session expired and `s1` is gone from the registry. -/
theorem exec_expired_teardown_witness :
    webExecuteCommand cfgEx stOne ⟨"alice", false⟩ (some "ls")
      (some "s1") 4000000 (.ok "out" 0) true =
      (.sessionExpired, cleanupSession stOne "s1" true) ∧
    getS (cleanupSession stOne "s1" true).sessions "s1" = none := by
  obtain ⟨h1, h2, _, _⟩ := exec_expired_teardown cfgEx stOne
    ⟨"alice", false⟩ "s1" aliceSession "ls" 4000000 (.ok "out" 0) rfl
    (by decide) (by decide)
  exact ⟨h1, h2⟩

/-- C5: the mock marker is sticky.  For every request handler of the
server (creates, executes, terminations, lookups, reaper sweeps), if a
session is mock before the request and still registered after it —
under the standing assumption that freshly generated uuids do not
collide with it — then it is still mock: no code path ever clears
`isMock`. -/
theorem mock_mode_sticky (cfg : Config) (st : ServerState) (op : Op)
    (sid : String) (s s' : Session)
    (hs : getS st.sessions sid = some s) (hm : s.isMock = true)
    (hni : sid ∉ opCreatedIds op)
    (hs' : getS (runOp cfg st op).sessions sid = some s') :
    s'.isMock = true := by
  obtain ⟨ids, e, hsub⟩ := runOp_effs cfg st op
  exact e.mockChain sid (fun hmem => hni (hsub.subset hmem)) hs hm hs'

/-- Witness for C5 at concrete inputs: after alice runs a command on
her mock session (Docker nominally healthy again), the session is
still marked mock. -/
theorem mock_mode_sticky_witness :
    ((getS (runOp cfgEx stMock opEx).sessions "s1").map
      Session.isMock) = some true := by
  cases hs' : getS (runOp cfgEx stMock opEx).sessions "s1" with
  | none => exact absurd hs' (by decide)
  | some s' =>
      simpa using mock_mode_sticky cfgEx stMock opEx "s1"
        aliceMockSession s' rfl rfl (by decide) hs'

/-- C9: creation is all-or-nothing.  When the container create/start
fails with anything but the Docker-socket-unavailable error (which
triggers the mock fallback instead), both create handlers answer 500
`Failed to create session` and return the state UNCHANGED: no session
is recorded and the capacity counter keeps its value — no partial
state survives the failure. -/
theorem create_all_or_nothing (cfg : Config) (st : ServerState)
    (u : String) (n : Option String) (sid ip mu : String)
    (ul : Option String) (fu lsid lip : String) (now : Nat)
    (msg : String)
    (hcap : st.containerCount < (cfg.maxContainers : Int)) :
    webCreateSession cfg st u n sid ip now (.otherErr msg) mu =
      (.createFailed ("Failed to create session: " ++ msg), st) ∧
    legacyCreateSession cfg st ul fu lsid lip now (.otherErr msg) =
      (.createFailed ("Failed to create session: " ++ msg), st) := by
  constructor
  · unfold webCreateSession
    rw [if_neg (by omega : ¬ st.containerCount ≥ (cfg.maxContainers : Int))]
  · unfold legacyCreateSession
    rw [if_neg (by omega : ¬ st.containerCount ≥ (cfg.maxContainers : Int))]

/-- Witness for C9 at concrete inputs: a failing create against the
empty server reports the error and leaves the registry empty and the
counter at 0. -/
theorem create_all_or_nothing_witness :
    webCreateSession cfgEx ⟨[], 0⟩ "alice" none "s1" "ip" 0
      (.otherErr "boom") "m1" =
      (.createFailed "Failed to create session: boom", ⟨[], 0⟩) ∧
    legacyCreateSession cfgEx ⟨[], 0⟩ none "fu" "s2" "ip" 0
      (.otherErr "boom") =
      (.createFailed "Failed to create session: boom", ⟨[], 0⟩) :=
  create_all_or_nothing cfgEx ⟨[], 0⟩ "alice" none "s1" "ip" "m1" none
    "fu" "s2" "ip" 0 "boom" (by decide)

/-- C10 (implicit): a missing or empty command is rejected first —
before the session is looked up, before expiry, authorization, and any
mutation — so the returned state is literally the input state:
`lastAccessed`, `commandCount` and the log of every session are
untouched, even for a valid owned session id. -/
theorem exec_command_guard (cfg : Config) (st : ServerState)
    (req : Requester) (c sid? : Option String) (now : Nat)
    (dres : DockerExecResult) (dok : Bool)
    (h : c = none ∨ c = some "") :
    webExecuteCommand cfg st req c sid? now dres dok =
      (.commandRequired, st) := by
  unfold webExecuteCommand
  rw [if_pos h]

/-- Witness for C10 at concrete inputs: both the missing and the empty
command on alice's valid session leave the state untouched. -/
theorem exec_command_guard_witness :
    webExecuteCommand cfgEx stOne ⟨"alice", false⟩ none (some "s1") 0
      (.ok "out" 0) true = (.commandRequired, stOne) ∧
    webExecuteCommand cfgEx stOne ⟨"alice", false⟩ (some "") (some "s1")
      0 (.ok "out" 0) true = (.commandRequired, stOne) :=
  ⟨exec_command_guard cfgEx stOne ⟨"alice", false⟩ none (some "s1") 0
      (.ok "out" 0) true (Or.inl rfl),
    exec_command_guard cfgEx stOne ⟨"alice", false⟩ (some "") (some "s1")
      0 (.ok "out" 0) true (Or.inr rfl)⟩

/-- C7: the ownership check of execute-command.  For a valid,
non-expired session and a non-empty command: a requester who is
neither the session's web owner nor an admin gets 403 Forbidden with
the state LITERALLY unchanged; a requester who is the owner or an
admin passes the check — the response is never Forbidden and the
command proceeds (the session's `commandCount` is incremented). -/
theorem exec_authorization (cfg : Config) (st : ServerState)
    (req : Requester) (sid : String) (s : Session) (c : String)
    (now : Nat) (dres : DockerExecResult) (dok : Bool)
    (hs : getS st.sessions sid = some s) (hc : c ≠ "")
    (hnex : ¬ now - s.lastAccessed > cfg.sessionTimeout) :
    ((s.webUser ≠ some req.username ∧ req.isAdmin = false) →
      webExecuteCommand cfg st req (some c) (some sid) now dres dok =
        (.forbidden, st)) ∧
    ((s.webUser = some req.username ∨ req.isAdmin = true) →
      (webExecuteCommand cfg st req (some c) (some sid) now
          dres dok).1 ≠ .forbidden ∧
      ∃ s', getS (webExecuteCommand cfg st req (some c) (some sid) now
          dres dok).2.sessions sid = some s' ∧
        s'.commandCount = s.commandCount + 1) := by
  have hguard : ¬((some c : Option String) = none ∨
      (some c : Option String) = some "") := by
    simp [hc]
  constructor
  · intro hforb
    unfold webExecuteCommand
    rw [if_neg hguard]
    dsimp only
    rw [hs]
    dsimp only
    rw [if_neg hnex, if_pos hforb]
  · intro hauth
    have hcond : ¬(s.webUser ≠ some req.username ∧
        req.isAdmin = false) := by
      rintro ⟨h1, h2⟩
      rcases hauth with h | h
      · exact h1 h
      · rw [h] at h2
        exact absurd h2 (by simp)
    unfold webExecuteCommand
    rw [if_neg hguard]
    dsimp only
    rw [hs]
    dsimp only
    rw [if_neg hnex, if_neg hcond]
    cases dres <;>
      · dsimp only
        split <;>
          exact ⟨by simp, _, getS_putS_self st.sessions sid _, rfl⟩

/-- Witness for C7 at concrete inputs: non-admin bob is refused on
alice's session with nothing changed; alice herself is not refused. -/
theorem exec_authorization_witness :
    webExecuteCommand cfgEx stOne ⟨"bob", false⟩ (some "ls") (some "s1")
      0 (.ok "out" 0) true = (.forbidden, stOne) ∧
    (webExecuteCommand cfgEx stOne ⟨"alice", false⟩ (some "ls")
      (some "s1") 0 (.ok "out" 0) true).1 ≠ .forbidden :=
  ⟨(exec_authorization cfgEx stOne ⟨"bob", false⟩ "s1" aliceSession
      "ls" 0 (.ok "out" 0) true rfl (by decide) (by decide)).1
      ⟨by decide, rfl⟩,
    ((exec_authorization cfgEx stOne ⟨"alice", false⟩ "s1" aliceSession
      "ls" 0 (.ok "out" 0) true rfl (by decide) (by decide)).2
      (Or.inl rfl)).1⟩

/-- C6 counterexample: not every response concerning a mock session is
flagged.  For the concrete mock session `s1` (whose `isMock` is true),
the `GET /api/session/:id` payload built by the source has NO mock
field at all — its `isMock` slot is `none` (absent) — so the detail
lookup of a mock session is indistinguishable from a real one. -/
theorem mock_flag_missing_in_detail :
    aliceMockSession.isMock = true ∧
    webSessionDetail cfgEx stMock ⟨"alice", false⟩ "s1" 0 =
      .ok ⟨"s1", "alice", 0, 0, 3600000, none⟩ := by
  exact ⟨rfl, by decide⟩

/-- C6 amended: mock-mode is flagged in the creation response and in
every command-execution response touching a mock session (mock branch
and switched-to-mock branch carry `isMock: true`), but NOT in the
session-detail lookup (`GET /api/session/:id`) nor in either variant
of the session listing (`GET /api/sessions`): those payloads carry no
mock field whatever the session's mode. -/
theorem mock_flag_amended (cfg : Config) :
    (∀ (st : ServerState) (u : String) (n : Option String)
      (sid ip m mu : String) (now : Nat),
      st.containerCount < (cfg.maxContainers : Int) →
      (webCreateSession cfg st u n sid ip now (.sockErr m) mu).1 =
        .created sid u (n.getD ("Session-" ++ sid.take 8))
          cfg.sessionTimeout (some true)) ∧
    (∀ (st : ServerState) (req : Requester) (sid : String) (s : Session)
      (c : String) (now : Nat) (dres : DockerExecResult) (dok : Bool),
      getS st.sessions sid = some s → c ≠ "" →
      ¬ now - s.lastAccessed > cfg.sessionTimeout →
      (s.webUser = some req.username ∨ req.isAdmin = true) →
      s.isMock = true →
      (webExecuteCommand cfg st req (some c) (some sid) now dres dok).1 =
        .execOk (mockExecOutput c now sid s.userId) 0 (some true) false
          false) ∧
    (∀ (st : ServerState) (req : Requester) (sid : String) (s : Session)
      (c m : String) (now : Nat) (dok : Bool),
      getS st.sessions sid = some s → c ≠ "" →
      ¬ now - s.lastAccessed > cfg.sessionTimeout →
      (s.webUser = some req.username ∨ req.isAdmin = true) →
      s.isMock = false →
      (webExecuteCommand cfg st req (some c) (some sid) now (.sockErr m)
          dok).1 =
        .execOk (switchedMockOutput c) 0 (some true) true false) ∧
    (∀ (st : ServerState) (req : Requester) (sid : String) (now : Nat)
      (d : SessionDetail),
      webSessionDetail cfg st req sid now = .ok d → d.isMock = none) ∧
    (∀ (st : ServerState) (req : Requester) (now : Nat)
      (items : List AdminSessionItem),
      webListSessions cfg st req now = .adminList items →
      ∀ it ∈ items, it.isMock = none) ∧
    (∀ (st : ServerState) (req : Requester) (now : Nat)
      (items : List UserSessionItem),
      webListSessions cfg st req now = .userList items →
      ∀ it ∈ items, it.isMock = none) := by
  refine ⟨?_, ?_, ?_, ?_, ?_, ?_⟩
  · intro st u n sid ip m mu now hcap
    unfold webCreateSession
    rw [if_neg (by omega : ¬ st.containerCount ≥ (cfg.maxContainers : Int))]
  · intro st req sid s c now dres dok hs hc hnex hauth hmock
    have hguard : ¬((some c : Option String) = none ∨
        (some c : Option String) = some "") := by simp [hc]
    have hcond : ¬(s.webUser ≠ some req.username ∧
        req.isAdmin = false) := by
      rintro ⟨h1, h2⟩
      rcases hauth with h | h
      · exact h1 h
      · rw [h] at h2
        exact absurd h2 (by simp)
    unfold webExecuteCommand
    rw [if_neg hguard]
    dsimp only
    rw [hs]
    dsimp only
    rw [if_neg hnex, if_neg hcond]
    rw [if_pos hmock]
    rfl
  · intro st req sid s c m now dok hs hc hnex hauth hmock
    have hguard : ¬((some c : Option String) = none ∨
        (some c : Option String) = some "") := by simp [hc]
    have hcond : ¬(s.webUser ≠ some req.username ∧
        req.isAdmin = false) := by
      rintro ⟨h1, h2⟩
      rcases hauth with h | h
      · exact h1 h
      · rw [h] at h2
        exact absurd h2 (by simp)
    unfold webExecuteCommand
    rw [if_neg hguard]
    dsimp only
    rw [hs]
    dsimp only
    rw [if_neg hnex, if_neg hcond]
    rw [if_neg (by simp [hmock] :
      ¬ (⟨s.userId, s.clientIp, s.containerId, s.created, now, s.webUser,
        s.sessionName, s.isMock, s.commandCount + 1,
        pushLog s.logs ⟨now, s.userId, sid, s.clientIp, c, req.username,
          none, none, none⟩⟩ : Session).isMock = true)]
    rfl
  · intro st req sid now d h
    unfold webSessionDetail at h
    split at h
    · exact absurd h (by simp)
    · split at h
      · exact absurd h (by simp)
      · injection h with h'
        rw [← h']
  · intro st req now items h it hit
    unfold webListSessions at h
    split at h
    · injection h with h'
      rw [← h'] at hit
      obtain ⟨p, _, hfp⟩ := List.mem_map.mp hit
      rw [← hfp]
    · exact absurd h (by simp)
  · intro st req now items h it hit
    unfold webListSessions at h
    split at h
    · exact absurd h (by simp)
    · injection h with h'
      rw [← h'] at hit
      obtain ⟨p, _, hfp⟩ := List.mem_map.mp hit
      rw [← hfp]

/-- Witness for C6's amended statement at concrete inputs: the mock
fallback creation is flagged, executing on the mock session `s1` is
flagged, and the detail payload for that very session has no mock
field. -/
theorem mock_flag_amended_witness :
    (webCreateSession cfgEx ⟨[], 0⟩ "alice" (some "S") "s1" "ip" 0
      (.sockErr "connect ENOENT /var/run/docker.sock") "m1").1 =
      .created "s1" "alice" "S" 3600000 (some true) ∧
    (webExecuteCommand cfgEx stMock ⟨"alice", false⟩ (some "ls")
      (some "s1") 0 (.ok "out" 0) true).1 =
      .execOk (mockExecOutput "ls" 0 "s1" "alice") 0 (some true) false
        false ∧
    (⟨"s1", "alice", 0, 0, 3600000, none⟩ : SessionDetail).isMock =
      none :=
  ⟨(mock_flag_amended cfgEx).1 ⟨[], 0⟩ "alice" (some "S") "s1" "ip"
      "connect ENOENT /var/run/docker.sock" "m1" 0 (by decide),
    (mock_flag_amended cfgEx).2.1 stMock ⟨"alice", false⟩ "s1"
      aliceMockSession "ls" 0 (.ok "out" 0) true rfl (by decide)
      (by decide) (Or.inl rfl) rfl,
    (mock_flag_amended cfgEx).2.2.2.1 stMock ⟨"alice", false⟩ "s1" 0
      ⟨"s1", "alice", 0, 0, 3600000, none⟩ (by decide)⟩

theorem setHeadLog_map_command (logs : List LogEntry)
    (f : LogEntry → LogEntry) (hf : ∀ e, (f e).command = e.command) :
    (setHeadLog logs f).map LogEntry.command =
      logs.map LogEntry.command := by
  cases logs with
  | nil => rfl
  | cons a t => simp [setHeadLog, hf]

theorem pushLog_map_command (logs : List LogEntry) (e : LogEntry)
    (h : logs.length ≤ 10) :
    (pushLog logs e).map LogEntry.command =
      (e.command :: logs.map LogEntry.command).take 10 := by
  unfold pushLog
  dsimp only
  split
  · next hgt =>
      simp only [List.length_cons] at hgt
      have h10 : logs.length = 10 := by omega
      rw [List.map_dropLast, List.dropLast_eq_take]
      simp [h10]
  · next hle =>
      simp only [List.length_cons] at hle
      have hlen : (e.command :: logs.map LogEntry.command).length ≤ 10 := by
        simp only [List.length_cons, List.length_map]
        omega
      rw [(List.take_eq_self_iff _).mpr hlen]
      simp

/-- C8: the recent-command log is a capacity-10 most-recent-first ring
buffer.  (1) Over every request history, every session's log holds at
most 10 entries.  (2) Each successful execute pushes the new command
at the front and truncates to 10: the commands after the call are
exactly `take 10` of the new command consed onto the old commands.
(3) Concretely, after creating a session and executing `c1` … `c11`,
the log holds `c11` (newest) down to `c2` — `c1` has been evicted. -/
theorem recent_log_bound (cfg : Config) :
    (∀ (ops : List Op) (sid : String) (s : Session),
      getS (runOps cfg ops).sessions sid = some s →
      s.logs.length ≤ 10) ∧
    (∀ (st : ServerState) (req : Requester) (sid : String) (s : Session)
      (c : String) (now : Nat) (dres : DockerExecResult) (dok : Bool),
      getS st.sessions sid = some s → c ≠ "" →
      ¬ now - s.lastAccessed > cfg.sessionTimeout →
      (s.webUser = some req.username ∨ req.isAdmin = true) →
      s.logs.length ≤ 10 →
      ∃ s', getS (webExecuteCommand cfg st req (some c) (some sid) now
          dres dok).2.sessions sid = some s' ∧
        s'.logs.map LogEntry.command =
          (c :: s.logs.map LogEntry.command).take 10) ∧
    ((getS (runOps cfgEx ops11).sessions "s1").map
        (fun s => s.logs.map LogEntry.command)) =
      some ["c11", "c10", "c9", "c8", "c7", "c6", "c5", "c4", "c3",
        "c2"] := by
  refine ⟨?_, ?_, ?_⟩
  · intro ops sid s h
    exact runOps_logsInv cfg ops sid s h
  · intro st req sid s c now dres dok hs hc hnex hauth hlog
    have hguard : ¬((some c : Option String) = none ∨
        (some c : Option String) = some "") := by simp [hc]
    have hcond : ¬(s.webUser ≠ some req.username ∧
        req.isAdmin = false) := by
      rintro ⟨h1, h2⟩
      rcases hauth with h | h
      · exact h1 h
      · rw [h] at h2
        exact absurd h2 (by simp)
    unfold webExecuteCommand
    rw [if_neg hguard]
    dsimp only
    rw [hs]
    dsimp only
    rw [if_neg hnex, if_neg hcond]
    cases dres <;>
      · dsimp only
        split <;>
          · refine ⟨_, getS_putS_self st.sessions sid _, ?_⟩
            dsimp only
            rw [setHeadLog_map_command]
            · exact pushLog_map_command s.logs _ hlog
            · intro e
              rfl
  · rfl

/-- Witness for C8 at concrete inputs: the session produced by the
11-command history obeys the bound 10, and a single execute on the
fresh session `s1` leaves exactly the one command in its log. -/
theorem recent_log_bound_witness :
    ((getS (runOps cfgEx ops11).sessions "s1").map
      (fun s => decide (s.logs.length ≤ 10))) = some true ∧
    ((getS (webExecuteCommand cfgEx stOne ⟨"alice", false⟩ (some "ls")
        (some "s1") 0 (.ok "out" 0) true).2.sessions "s1").map
      (fun s => s.logs.map LogEntry.command)) = some ["ls"] := by
  constructor
  · cases hs : getS (runOps cfgEx ops11).sessions "s1" with
    | none => exact absurd hs (by decide)
    | some s =>
        simpa using (recent_log_bound cfgEx).1 ops11 "s1" s hs
  · obtain ⟨s', h1, h2⟩ := (recent_log_bound cfgEx).2.1 stOne
      ⟨"alice", false⟩ "s1" aliceSession "ls" 0 (.ok "out" 0) true rfl
      (by decide) (by decide) (Or.inl rfl) (by decide)
    rw [h1]
    simp [h2, aliceSession]

end TerminalServer
